import Mathlib

/-
  Verification development for the CodeEditor component
  (src/src/Component/CodeEditor/CodeEditor.tsx).

  The component state that matters here is the triple of React state cells
  value / invalidMessage / hasError, the active parser selection, and the
  debounce timer. Parsers are host-supplied objects with async
  readStyle / writeStyle. Promise results are modelled by JsResult: a
  resolved value or a rejection message. Style documents are modelled as
  JSON values, since the raw mode of the component treats them through
  JSON.stringify and JSON.parse.
-/

namespace GsCodeEditor

/-- Result of awaiting a JS promise: resolved value or rejection. -/
inductive JsResult (α : Type) where
  | ok (a : α)
  | rejected (msg : String)

/-- An error object as produced by geostyler parsers: carries a message. -/
structure ErrObj where
  message : String
deriving DecidableEq

mutual
/-- A JS value as handled by JSON.stringify and JSON.parse. Numbers are
modelled as integers; the claims do not depend on float formatting. -/
inductive Json where
  | null
  | bool (b : Bool)
  | num (n : Int)
  | str (s : String)
  | arr (xs : JsonList)
  | obj (fs : JsonFields)

inductive JsonList where
  | nil
  | cons (hd : Json) (tl : JsonList)

inductive JsonFields where
  | nil
  | cons (k : String) (v : Json) (tl : JsonFields)
end

/-- Lower-case hex digit, used for control-character escapes. -/
def hexDigit (n : Nat) : Char :=
  if n < 10 then Char.ofNat (48 + n) else Char.ofNat (87 + n)

/-- JSON string escaping as performed by JSON.stringify. -/
def escapeJsonChar (c : Char) : String :=
  if c = '"' then "\\\""
  else if c = '\\' then "\\\\"
  else if c = '\n' then "\\n"
  else if c = '\r' then "\\r"
  else if c = '\t' then "\\t"
  else if c = Char.ofNat 8 then "\\b"
  else if c = Char.ofNat 12 then "\\f"
  else if c.toNat < 32 then
    "\\u00" ++ String.singleton (hexDigit (c.toNat / 16)) ++ String.singleton (hexDigit (c.toNat % 16))
  else String.singleton c

/-- Quote a string as JSON.stringify does. -/
def quoteJsonString (s : String) : String :=
  "\"" ++ String.join (s.data.map escapeJsonChar) ++ "\""

mutual
/-- JSON.stringify(value, null, 2): the recursive serializer with the
current indentation string as first argument. Children are rendered at
indentation ind plus two spaces; an empty array or object prints with no
newline, per the ECMA specification of SerializeJSONObject. -/
def stringifyIndent : String → Json → String
  | _, Json.null => "null"
  | _, Json.bool b => if b then "true" else "false"
  | _, Json.num n => toString n
  | _, Json.str s => quoteJsonString s
  | _, Json.arr JsonList.nil => "[]"
  | ind, Json.arr xs =>
      "[\n"
        ++ String.intercalate ",\n" ((stringifyList (ind ++ "  ") xs).map (fun it => ind ++ "  " ++ it))
        ++ "\n" ++ ind ++ "]"
  | _, Json.obj JsonFields.nil => "\x7b\x7d"
  | ind, Json.obj fs =>
      "\x7b\n"
        ++ String.intercalate ",\n" ((stringifyFields (ind ++ "  ") fs).map (fun it => ind ++ "  " ++ it))
        ++ "\n" ++ ind ++ "\x7d"

def stringifyList : String → JsonList → List String
  | _, JsonList.nil => []
  | ind, JsonList.cons x tl => stringifyIndent ind x :: stringifyList ind tl

def stringifyFields : String → JsonFields → List String
  | _, JsonFields.nil => []
  | ind, JsonFields.cons k v tl =>
      (quoteJsonString k ++ ": " ++ stringifyIndent ind v) :: stringifyFields ind tl
end

/-- JSON.stringify(s, null, 2), as called on line 145 of CodeEditor.tsx. -/
def jsonStringify2 (j : Json) : String := stringifyIndent "" j

/-- A StyleParser as consumed by the component: a title plus the async
readStyle and writeStyle operations. readStyle resolves to an object with
an optional output and an errors list that defaults to empty; writeStyle
resolves to the serialized output plus an errors list, where an undefined
errors field behaves exactly like the empty list under the
`errors?.length > 0` test of the source. -/
structure JsParser where
  title : String
  readStyle : String → JsResult (Option Json × List ErrObj)
  writeStyle : Json → JsResult (String × List ErrObj)

/-- The React state cells of the component that the claims concern:
value (the text buffer), invalidMessage (the inline error message, none
standing for undefined), hasError (the serialization fault flag). -/
structure EditorState where
  value : String
  invalidMessage : Option String
  hasError : Bool
deriving DecidableEq

/-- Initial component state: value is the empty string, no inline message,
no fault flag. -/
def ed0 : EditorState := { value := "", invalidMessage := none, hasError := false }

/-- The commit handler onChange (lines 164 to 183). It sets value to the
committed text and clears invalidMessage, then branches: with an active
parser it awaits readStyle; a non-empty error list sets invalidMessage to
the messages joined with a comma and a space, otherwise parsedStyle takes
the resolved output. Without an active parser it runs JSON.parse, modelled
by the jsonParse argument standing for the builtin. The call
onStyleChange(parsedStyle) sits after the if and else inside the try
block, so it runs on the non-exceptional paths with whatever parsedStyle
holds; a rejection or a JSON.parse throw jumps to the catch, which sets
invalidMessage from the thrown message and skips the callback. The second
component returned is the list of onStyleChange invocations made, each
with its argument, where none stands for undefined. -/
def onChange (activeParser : Option JsParser) (jsonParse : String → JsResult Json)
    (st : EditorState) (v : String) : EditorState × List (Option Json) :=
  let st1 : EditorState := { st with value := v, invalidMessage := none }
  match activeParser with
  | some parser =>
    match parser.readStyle v with
    | JsResult.rejected msg => ({ st1 with invalidMessage := some msg }, [])
    | JsResult.ok (output, errors) =>
      if errors.length > 0 then
        ({ st1 with invalidMessage := some (String.intercalate ", " (errors.map ErrObj.message)) },
         [none])
      else (st1, [output])
  | none =>
    match jsonParse v with
    | JsResult.rejected msg => ({ st1 with invalidMessage := some msg }, [])
    | JsResult.ok s => (st1, [some s])

/-- The state updates performed when the writeStyle promise of
updateValueFromStyle settles (lines 132 to 147). A resolved result with a
non-empty errors list sets hasError; otherwise the resolved output becomes
the value. A rejected writeStyle leaves the state unchanged: the source
attaches .catch to the outer `new Promise`, but the executor passed to it
is an async function, so a rejection inside it rejects only the ignored
promise returned by the async function itself and the outer promise never
rejects; the setHasError(true) in the .catch is therefore unreachable. -/
def writeCompletion (res : JsResult (String × List ErrObj)) (st : EditorState) : EditorState :=
  match res with
  | JsResult.ok (output, errors) =>
      if errors.length > 0 then { st with hasError := true }
      else { st with value := output }
  | JsResult.rejected _ => st

/-- updateValueFromStyle (lines 130 to 148) in the settled, non-racing
case: hasError is reset synchronously, then with an active parser the
writeStyle completion is applied, and without one the value becomes
JSON.stringify(s, null, 2). -/
def updateValueFromStyle (activeParser : Option JsParser) (st : EditorState) (s : Json) :
    EditorState :=
  let st1 : EditorState := { st with hasError := false }
  match activeParser with
  | some parser => writeCompletion (parser.writeStyle s) st1
  | none => { st1 with value := jsonStringify2 s }

/-- The render guard of lines 160 to 162: the fault indicator replaces the
editor exactly when hasError is set. -/
def rendersFaultIndicator (st : EditorState) : Bool := st.hasError

/-- Two back-to-back invocations of updateValueFromStyle with styles s1
then s2 under the same active parser: both synchronous hasError resets run
first, then the two writeStyle completions are applied in their resolution
order. When firstResolvesLast is true the promise for s1 settles after the
one for s2, so its completion runs last. No generation token exists in the
source to discard the stale completion. -/
def raceUpdates (parser : JsParser) (st : EditorState) (s1 s2 : Json)
    (firstResolvesLast : Bool) : EditorState :=
  let st1 : EditorState := { st with hasError := false }
  if firstResolvesLast then
    writeCompletion (parser.writeStyle s1) (writeCompletion (parser.writeStyle s2) st1)
  else
    writeCompletion (parser.writeStyle s2) (writeCompletion (parser.writeStyle s1) st1)

/-- The debounce timer of the component: at most one pending commit,
holding its firing time and the text it will commit. -/
structure DebounceState where
  pending : Option (Nat × String)
deriving DecidableEq

/-- handleOnChange (lines 198 to 206), raised on every keystroke at time
now: clearTimeout discards the pending commit and setTimeout installs a
single new one firing at now plus delay with the new text. No React state
cell is written, so the editor state passes through unchanged; in
particular no deserialize runs here. -/
def handleOnChange (delay now : Nat) (st : EditorState) (db : DebounceState) (v : String) :
    EditorState × DebounceState :=
  (st, { pending := some (now + delay, v) })

/-- A chronological trace of user edits is quiet when each edit arrives
strictly before the pending timer of its predecessor would fire. -/
def withinQuiet (delay : Nat) : List (Nat × String) → Bool
  | (t, _) :: (t2, v2) :: rest =>
      decide (t2 < t + delay) && withinQuiet delay ((t2, v2) :: rest)
  | _ => true

/-- Event-loop run of a chronological edit trace against the single
debounce timer: an edit at time t first lets a pending commit fire if its
due time has been reached, then resets the timer to t plus delay with the
new text; the trailing pending commit fires at the end. Returns the list
of commits, each with its firing time and committed text. -/
def runEdits (delay : Nat) (pending : Option (Nat × String)) :
    List (Nat × String) → List (Nat × String)
  | [] =>
    (match pending with
     | none => []
     | some c => [c])
  | (t, v) :: rest =>
    match pending with
    | some (due, txt) =>
        if due ≤ t then (due, txt) :: runEdits delay (some (t + delay, v)) rest
        else runEdits delay (some (t + delay, v)) rest
    | none => runEdits delay (some (t + delay, v)) rest

/-- The effect of lines 150 to 154 at one render, with Style and Parser
abstract and lodash isEqual modelled as structural equality. The first
component of prev is the style seen at the previous render (none before
the first render) and the second the active parser of the previous render.
Returns the pair remembered for the next render and whether
updateValueFromStyle was triggered. -/
def externalStep {Style Parser : Type} [DecidableEq Style] [DecidableEq Parser]
    (prev : Option Style × Option Parser) (s : Style) (p : Option Parser) :
    (Option Style × Option Parser) × Bool :=
  let changed := !(decide (prev.1 = some s)) || !(decide (prev.2 = p))
  ((some s, p), changed)

/-- onParserSelect (lines 185 to 188): resolve the selected title to the
first parser in the supplied list bearing it, or none. -/
def onParserSelect (parsers : List JsParser) (selection : String) : Option JsParser :=
  parsers.find? (fun p => p.title == selection)

/-- An SLD parser object as mutated by onUnitSelect: the configuration
field symbolizerUnits is read at serialize time, modelled by writeWithUnits
taking the current units. -/
structure SldParserObj where
  title : String
  symbolizerUnits : String
  writeWithUnits : String → Json → JsResult (String × List ErrObj)
  readSld : String → JsResult (Option Json × List ErrObj)

/-- View of an SLD parser object as the StyleParser interface the
component consumes; writeStyle reads the current symbolizerUnits. -/
def SldParserObj.toJsParser (p : SldParserObj) : JsParser :=
  { title := p.title
    readStyle := p.readSld
    writeStyle := p.writeWithUnits p.symbolizerUnits }

/-- A heap of parser objects plus the component state. The active parser
is a reference into the heap, modelled by its index, so that an in-place
mutation of the active instance is visible through the heap. -/
structure ParserHeapState where
  parsers : List SldParserObj
  activeIdx : Option Nat
  editor : EditorState

/-- onUnitSelect (lines 190 to 196): when a parser is active, assign the
selected units to the symbolizerUnits field of that very instance in the
heap, then run updateValueFromStyle on the current style with the mutated
instance, the same path the external style-or-parser effect takes. -/
def onUnitSelect (hs : ParserHeapState) (style : Json) (selection : String) : ParserHeapState :=
  match hs.activeIdx with
  | none => hs
  | some i =>
    match hs.parsers[i]? with
    | none => hs
    | some p =>
      let p2 : SldParserObj := { p with symbolizerUnits := selection }
      { parsers := hs.parsers.set i p2
        activeIdx := some i
        editor := updateValueFromStyle (some p2.toJsParser) hs.editor style }

/-- Stand-in for the JSON.parse builtin in concrete evaluations; the
parser branch of onChange never consults it. -/
def jsonParseToy : String → JsResult Json := fun v =>
  if v = "null" then JsResult.ok Json.null
  else JsResult.rejected ("Unexpected token in JSON: " ++ v)

/-- A parser whose readStyle resolves with a non-empty error list and
whose writeStyle succeeds; used to evaluate the commit failure path. -/
def errListParser : JsParser :=
  { title := "Failing"
    readStyle := fun _ => JsResult.ok (none, [⟨"e1"⟩, ⟨"e2"⟩])
    writeStyle := fun s => JsResult.ok (jsonStringify2 s, []) }

/-- A parser whose readStyle and writeStyle promises both reject; used to
evaluate the rejection paths. -/
def rejectingParser : JsParser :=
  { title := "Rejecting"
    readStyle := fun _ => JsResult.rejected "read boom"
    writeStyle := fun _ => JsResult.rejected "write boom" }

/-- A parser with a successful deterministic writeStyle; used to evaluate
the race between two in-flight serializations. -/
def echoParser : JsParser :=
  { title := "Echo"
    readStyle := fun v => JsResult.ok (some (Json.str v), [])
    writeStyle := fun s => JsResult.ok (jsonStringify2 s, []) }

/-- A supplied parser that carries the title of the raw no-format option. -/
def gsParserA : JsParser :=
  { title := "GeoStyler Style"
    readStyle := fun _ => JsResult.ok (none, [])
    writeStyle := fun _ => JsResult.ok ("A", []) }

/-- A second supplied parser with the same title as gsParserA. -/
def gsParserB : JsParser :=
  { title := "GeoStyler Style"
    readStyle := fun _ => JsResult.ok (none, [])
    writeStyle := fun _ => JsResult.ok ("B", []) }

/-- A concrete SLD parser object whose serialized output records the units
it was serialized with. -/
def sldParserObj0 : SldParserObj :=
  { title := "SLD Style Parser"
    symbolizerUnits := "pixel"
    writeWithUnits := fun u s => JsResult.ok ("units=" ++ u ++ ";" ++ jsonStringify2 s, [])
    readSld := fun _ => JsResult.ok (none, []) }

/-- A concrete heap with one SLD parser object, active. -/
def heap0 : ParserHeapState :=
  { parsers := [sldParserObj0], activeIdx := some 0, editor := ed0 }

/-- Claim C1, code behavior at the failing input: when the active parser
fails deserialization with the non-empty error list [e1, e2] on the text
bad, the commit keeps the text verbatim, stores the joined error messages
as the inline message, leaves the fault flag clear, but still invokes
onStyleChange exactly once, passing undefined, because the call sits after
the if and else inside the try block of lines 167 to 179. -/
theorem onChange_error_still_calls_onStyleChange :
    onChange (some errListParser) jsonParseToy ed0 "bad"
      = ({ value := "bad", invalidMessage := some "e1, e2", hasError := false }, [none]) := rfl

/-- Claim C2, code behavior at the failing input: when writeStyle rejects,
the dead catch of line 147 never runs, so updateValueFromStyle leaves the
value untouched and ends with hasError false, even clearing a previously
set fault flag, and the fault indicator of lines 160 to 162 is not
rendered. -/
theorem updateValueFromStyle_rejection_no_fault :
    updateValueFromStyle (some rejectingParser)
        { value := "old", invalidMessage := none, hasError := true } (Json.str "s")
      = { value := "old", invalidMessage := none, hasError := false } ∧
    rendersFaultIndicator
        (updateValueFromStyle (some rejectingParser)
          { value := "old", invalidMessage := none, hasError := true } (Json.str "s"))
      = false :=
  ⟨rfl, rfl⟩

/-- Claim C3, code behavior at the failing input: two external changes
issue writeStyle for S1 and then for S2; when the promise for S1 resolves
after the one for S2, the final value is the serialization of S1, not of
S2, because no generation token discards the stale completion. -/
theorem raceUpdates_stale_result_wins :
    (raceUpdates echoParser ed0 (Json.str "one") (Json.str "two") true).value
      = jsonStringify2 (Json.str "one") ∧
    (raceUpdates echoParser ed0 (Json.str "one") (Json.str "two") true).value
      ≠ jsonStringify2 (Json.str "two") :=
  ⟨rfl, by decide⟩

/-- Claim C4, counterexample to the claim as stated: a keystroke carrying
the text B does not update the text buffer immediately; handleOnChange
only resets the debounce timer, so the value still holds the previous
content A right after the edit event. -/
theorem handleOnChange_no_immediate_update :
    ¬ ((handleOnChange 500 0 { value := "A", invalidMessage := none, hasError := false }
        { pending := none } "B").1.value = "B") := by
  decide

/-- Claim C4, amended: a user edit leaves all component state unchanged
and only resets the single debounce timer to fire at now plus delay with
the new text; no deserialize runs on the keystroke. The text buffer is set
to the edited text at the debounced commit itself, on every branch of
onChange. -/
theorem handleOnChange_defers_commit (delay now : Nat) (st : EditorState) (db : DebounceState)
    (v : String) (p : Option JsParser) (jp : String → JsResult Json) (st2 : EditorState) :
    handleOnChange delay now st db v = (st, { pending := some (now + delay, v) }) ∧
    (onChange p jp st2 v).1.value = v := by
  refine ⟨rfl, ?_⟩
  cases p with
  | none =>
    cases h : jp v with
    | ok a => simp [onChange, h]
    | rejected m => simp [onChange, h]
  | some parser =>
    cases h : parser.readStyle v with
    | ok r =>
      obtain ⟨output, errors⟩ := r
      by_cases he : errors.length > 0 <;> simp [onChange, h, he]
    | rejected m => simp [onChange, h]

/-- Helper for claim C5: once a timer is pending for the head edit, a
quiet trace ends with exactly the commit of its last edit. -/
theorem runEdits_quiet (delay : Nat) :
    ∀ (es : List (Nat × String)) (t : Nat) (v : String),
      withinQuiet delay ((t, v) :: es) = true →
      runEdits delay (some (t + delay, v)) es
        = [((es.getLastD (t, v)).1 + delay, (es.getLastD (t, v)).2)] := by
  intro es
  induction es with
  | nil =>
    intro t v _
    simp [runEdits]
  | cons e2 rest ih =>
    intro t v h
    obtain ⟨t2, v2⟩ := e2
    rw [withinQuiet, Bool.and_eq_true, decide_eq_true_eq] at h
    obtain ⟨h1, h2⟩ := h
    have hstep : runEdits delay (some (t + delay, v)) ((t2, v2) :: rest)
        = runEdits delay (some (t2 + delay, v2)) rest := by
      simp only [runEdits]
      rw [if_neg (by omega)]
    rw [hstep, ih t2 v2 h2, List.getLastD_cons]

/-- Claim C5: for every non-empty chronological sequence of user edits in
which each edit arrives within the quiet interval of its predecessor, the
run of the single per-instance debounce timer produces exactly one commit,
carrying the text of the last edit and firing one delay after it; every
earlier pending commit is canceled by the next edit. -/
theorem debounce_single_commit (delay : Nat) (e : Nat × String) (es : List (Nat × String))
    (h : withinQuiet delay (e :: es) = true) :
    runEdits delay none (e :: es) = [((es.getLastD e).1 + delay, (es.getLastD e).2)] := by
  obtain ⟨t, v⟩ := e
  exact runEdits_quiet delay es t v h

/-- Witness for claim C5 at a concrete trace of three edits inside the
default quiet interval. -/
theorem debounce_single_commit_check :
    withinQuiet 500 [(0, "a"), (100, "b"), (300, "c")] = true ∧
    runEdits 500 none [(0, "a"), (100, "b"), (300, "c")] = [(800, "c")] :=
  ⟨rfl, debounce_single_commit 500 (0, "a") [(100, "b"), (300, "c")] rfl⟩

/-- Claim C6: invoking the external style-or-parser effect twice in a row
with the same style and parser, compared by value equality, triggers at
most one serialize call; the second invocation never triggers one. -/
theorem externalStep_idempotent {Style Parser : Type} [DecidableEq Style] [DecidableEq Parser]
    (prev : Option Style × Option Parser) (s : Style) (p : Option Parser) :
    (externalStep (externalStep prev s p).1 s p).2 = false ∧
    ((if (externalStep prev s p).2 then 1 else 0) : Nat)
      + (if (externalStep (externalStep prev s p).1 s p).2 then 1 else 0) ≤ 1 := by
  have h1 : decide (some s = some s) = true := decide_eq_true rfl
  have h2 : decide (p = p) = true := decide_eq_true rfl
  constructor
  · simp [externalStep, h1, h2]
  · simp [externalStep, h1, h2]
    split <;> simp

/-- Claim C7: with no active parser, the external update sets the text
buffer to the two-space-indented JSON.stringify of the style, and the
commit routes the buffer through the raw JSON.parse decode and invokes
onStyleChange with its result, never consulting any deserialize of a
parser; evaluated concretely on the object with field name holding x. -/
theorem raw_mode_json_builtins (st : EditorState) (s : Json)
    (jp : String → JsResult Json) (st2 : EditorState) (v : String) :
    (updateValueFromStyle none st s).value = jsonStringify2 s ∧
    (onChange none jp st2 v).2
      = (match jp v with
         | JsResult.ok a => [some a]
         | JsResult.rejected _ => []) ∧
    (updateValueFromStyle none ed0
        (Json.obj (JsonFields.cons "name" (Json.str "x") JsonFields.nil))).value
      = "\x7b\n  \"name\": \"x\"\n\x7d" := by
  refine ⟨rfl, ?_, rfl⟩
  cases h : jp v with
  | ok a => simp [onChange, h]
  | rejected m => simp [onChange, h]

/-- Claim C8: with a parser active, a unit selection mutates the
symbolizerUnits field on the very registry entry of the active instance,
leaves the selection in place, and immediately re-serializes the current
style through updateValueFromStyle, the same path an external
style-or-parser change takes, with the mutated instance. -/
theorem onUnitSelect_mutates_in_place (hs : ParserHeapState) (style : Json) (sel : String)
    (i : Nat) (p : SldParserObj) (hidx : hs.activeIdx = some i)
    (hget : hs.parsers[i]? = some p) :
    (onUnitSelect hs style sel).parsers
        = hs.parsers.set i { p with symbolizerUnits := sel } ∧
    (onUnitSelect hs style sel).editor
        = updateValueFromStyle (some (SldParserObj.toJsParser { p with symbolizerUnits := sel }))
            hs.editor style ∧
    (onUnitSelect hs style sel).activeIdx = hs.activeIdx := by
  simp [onUnitSelect, hidx, hget]

/-- Witness for claim C8 on a concrete heap with one active SLD parser. -/
theorem onUnitSelect_mutates_in_place_check :
    (onUnitSelect heap0 (Json.str "s") "metre").parsers
        = heap0.parsers.set 0 { sldParserObj0 with symbolizerUnits := "metre" } ∧
    (onUnitSelect heap0 (Json.str "s") "metre").editor
        = updateValueFromStyle
            (some (SldParserObj.toJsParser { sldParserObj0 with symbolizerUnits := "metre" }))
            heap0.editor (Json.str "s") ∧
    (onUnitSelect heap0 (Json.str "s") "metre").activeIdx = heap0.activeIdx :=
  onUnitSelect_mutates_in_place heap0 (Json.str "s") "metre" 0 sldParserObj0 rfl rfl

/-- Claim C9: when the supplied registry does not itself use the reserved
raw title, selecting the raw no-format title resolves to none, and any
title absent from the registry also resolves to none; the selector is a
total function, so no error is ever raised. -/
theorem onParserSelect_degrades (parsers : List JsParser) (sel : String)
    (hraw : ∀ p ∈ parsers, p.title ≠ "GeoStyler Style")
    (hsel : ∀ p ∈ parsers, p.title ≠ sel) :
    onParserSelect parsers "GeoStyler Style" = none ∧ onParserSelect parsers sel = none := by
  constructor
  · rw [onParserSelect, List.find?_eq_none]
    intro p hp
    simpa using hraw p hp
  · rw [onParserSelect, List.find?_eq_none]
    intro p hp
    simpa using hsel p hp

/-- Witness for claim C9: a registry holding one parser titled Echo, with
the unknown selection SLD Style Parser. -/
theorem onParserSelect_degrades_check :
    (∀ p ∈ [echoParser], p.title ≠ "GeoStyler Style") ∧
    (∀ p ∈ [echoParser], p.title ≠ "SLD Style Parser") ∧
    (onParserSelect [echoParser] "GeoStyler Style" = none ∧
     onParserSelect [echoParser] "SLD Style Parser" = none) :=
  ⟨by decide, by decide,
   onParserSelect_degrades [echoParser] "SLD Style Parser" (by decide) (by decide)⟩

/-- Claim C10: selection resolves to the first parser in supplied order
bearing the selected title, so duplicate titles resolve deterministically
first-match-wins; in particular a supplied parser carrying the raw-mode
title is returned, shadowing raw mode, instead of none. -/
theorem onParserSelect_first_match (ps1 ps2 : List JsParser) (p : JsParser) (sel : String)
    (hp : p.title = sel) (h1 : ∀ q ∈ ps1, q.title ≠ sel) :
    onParserSelect (ps1 ++ p :: ps2) sel = some p := by
  induction ps1 with
  | nil =>
    have hpt : (p.title == sel) = true := by simp [hp]
    show List.find? (fun r => r.title == sel) ([] ++ p :: ps2) = some p
    rw [List.nil_append]
    exact List.find?_cons_of_pos _ hpt
  | cons q qs ih =>
    have hq : ¬ ((q.title == sel) = true) := by
      simpa using h1 q (List.mem_cons_self q qs)
    have hrest : ∀ r ∈ qs, r.title ≠ sel := fun r hr => h1 r (List.mem_cons_of_mem q hr)
    show List.find? (fun r => r.title == sel) ((q :: qs) ++ p :: ps2) = some p
    rw [List.cons_append]
    have step : List.find? (fun r => r.title == sel) (q :: (qs ++ p :: ps2))
        = List.find? (fun r => r.title == sel) (qs ++ p :: ps2) := by
      apply List.find?_cons_of_neg
      exact hq
    rw [step]
    exact ih hrest

/-- Witness for claim C10: two supplied parsers both titled with the raw
option title; selection returns the first one, shadowing raw mode. -/
theorem onParserSelect_first_match_check :
    gsParserA.title = "GeoStyler Style" ∧
    onParserSelect [gsParserA, gsParserB] "GeoStyler Style" = some gsParserA :=
  ⟨rfl, onParserSelect_first_match [] [gsParserB] gsParserA "GeoStyler Style" rfl (by simp)⟩

end GsCodeEditor
